import Mathlib

/-!
# Verification of pigmap's block-image atlas (`src/blockimages.h`)

A shallow embedding of the `BlockImages` structure from `blockimages.h`:
the block-offset lookup table, the atlas rectangle computation, the
opacity/transparency classification, and the alpha-snapping pass.

The header file supplies the inline accessors (`getOffset`, `getRect`,
`isOpaque`, `isTransparent`) and the constant `NUMBLOCKIMAGES`; the bodies
of `setOffsets`, `checkOpacityAndTransparency`, `retouchAlphas` and
`create` are only declared there, so those operations are modelled from
the specification's description, as flagged in their doc comments.
-/

namespace Pigmap

/-- `#define NUMBLOCKIMAGES 715` from `blockimages.h`. -/
def NUMBLOCKIMAGES : Nat := 715

/-- An RGBA pixel: four 8-bit channels, each held as a `Nat` in `[0, 255]`. -/
structure RGBAPixel where
  r : Nat
  g : Nat
  b : Nat
  a : Nat
deriving DecidableEq

/-- An image is modelled as a total pixel function; the pipeline only ever
reads coordinates inside the atlas bounds. -/
def RGBAImage : Type := Nat → Nat → RGBAPixel

/-- `ImageRect` from `rgba.h`: an axis-aligned rectangle `[x, x+w) × [y, y+h)`
inside an image.  The fields are C `int`s holding non-negative values here. -/
structure ImageRect where
  x : Nat
  y : Nat
  w : Nat
  h : Nat
deriving DecidableEq

/-- Two rectangles are disjoint when they share no pixel: one lies entirely
to the left of, right of, above, or below the other. -/
def ImageRect.disjoint (r1 r2 : ImageRect) : Prop :=
  r1.x + r1.w ≤ r2.x ∨ r2.x + r2.w ≤ r1.x ∨ r1.y + r1.h ≤ r2.y ∨ r2.y + r2.h ≤ r1.y

/-- The size of the C array `int blockOffsets[256 * 16]`. -/
def blockOffsetsSize : Nat := 256 * 16

/-- The flat index `blockID * 16 + blockData` used by
`BlockImages::getOffset` to address `blockOffsets`. -/
def blockOffsetsIndex (blockID blockData : Nat) : Nat :=
  blockID * 16 + blockData

/-- `BlockImages::getOffset`:
`return blockOffsets[blockID * 16 + blockData];`.
The table is a list of length `blockOffsetsSize`; an access past the end of
the C array (undefined behaviour) is modelled as `none`. -/
def getOffset (blockOffsets : List Nat) (blockID blockData : Nat) : Option Nat :=
  blockOffsets[blockOffsetsIndex blockID blockData]?

/-- `BlockImages::getRect`:
`return ImageRect((offset%16)*rectsize, (offset/16)*rectsize, rectsize, rectsize);`. -/
def getRect (rectsize : Nat) (offset : Nat) : ImageRect :=
  ⟨(offset % 16) * rectsize, (offset / 16) * rectsize, rectsize, rectsize⟩

/-- The atlas width: rows of 16 block images, so `16 * rectsize` where
`rectsize = 4B` (comment on `BlockImages::img`). -/
def atlasWidth (B : Nat) : Nat := 16 * (4 * B)

/-- The atlas height: `ceil(NUMBLOCKIMAGES / 16)` rows of height `4B`. -/
def atlasHeight (B : Nat) : Nat := ((NUMBLOCKIMAGES + 15) / 16) * (4 * B)

/-- A rectangle lies fully inside a `w × h` image. -/
def rectInside (r : ImageRect) (w h : Nat) : Prop :=
  r.x + r.w ≤ w ∧ r.y + r.h ≤ h

/-- Membership of a sprite-local pixel `(x, y)` in the hexagon inscribed in
the `4B × 4B` cell, following the diagram in `blockimages.h` (for `B = 3`:
row `r` counted from the nearer of the top/bottom edge is full when
`r ≥ B`, and otherwise holds the `4r + 2` pixels centred at columns
`2B - 2r - 1 .. 2B + 2r`). -/
def inHex (B x y : Nat) : Bool :=
  let r := min y (4 * B - 1 - y)
  y < 4 * B && x < 4 * B &&
    (B ≤ r || (2 * B - 2 * r - 1 ≤ x && x ≤ 2 * B + 2 * r))

/-- The sprite-local view of the atlas at a given offset: local pixel
`(x, y)` of the sprite at `offset` sits at global pixel
`((offset % 16) * 4B + x, (offset / 16) * 4B + y)`. -/
def spriteAt (B : Nat) (img : RGBAImage) (offset : Nat) : RGBAImage :=
  fun x y => img ((offset % 16) * (4 * B) + x) ((offset / 16) * (4 * B) + y)

/-- A sprite is opaque when every hexagon pixel has alpha 255, computed by
scanning the `4B × 4B` cell. -/
def spriteOpaque (B : Nat) (s : RGBAImage) : Bool :=
  (List.range (4 * B)).all fun y =>
    (List.range (4 * B)).all fun x =>
      !(inHex B x y) || (s x y).a == 255

/-- A sprite is fully transparent when every hexagon pixel has alpha 0,
computed by scanning the `4B × 4B` cell. -/
def spriteTransparent (B : Nat) (s : RGBAImage) : Bool :=
  (List.range (4 * B)).all fun y =>
    (List.range (4 * B)).all fun x =>
      !(inHex B x y) || (s x y).a == 0

/-- The result of the classification pass: the (possibly normalized) atlas
pixels plus the two per-offset flag arrays. -/
structure ClassifierResult where
  atlas : RGBAImage
  opacity : List Bool
  transparency : List Bool

/-- Modelled from the spec: the body of
`BlockImages::checkOpacityAndTransparency` is not in `src/` (the header only
declares it).  Per the spec's Alpha Classifier pass 2, each of the
`NUMBLOCKIMAGES` sprites is scanned over its hexagon pixels: it is flagged
opaque iff every hexagon pixel has alpha 255 and transparent iff every
hexagon pixel has alpha 0; pixels outside the hexagon are never classified
and are forced fully transparent regardless of source content. -/
def checkOpacityAndTransparency (B : Nat) (img : RGBAImage) : ClassifierResult where
  atlas := fun X Y =>
    let p := img X Y
    if inHex B (X % (4 * B)) (Y % (4 * B)) then p else ⟨p.r, p.g, p.b, 0⟩
  opacity := (List.range NUMBLOCKIMAGES).map fun o => spriteOpaque B (spriteAt B img o)
  transparency := (List.range NUMBLOCKIMAGES).map fun o => spriteTransparent B (spriteAt B img o)

/-- `BlockImages::isOpaque(int offset)`: `return opacity[offset];`. -/
def isOpaqueFlag (res : ClassifierResult) (offset : Nat) : Bool :=
  res.opacity.getD offset false

/-- `BlockImages::isTransparent(int offset)`: `return transparency[offset];`. -/
def isTransparentFlag (res : ClassifierResult) (offset : Nat) : Bool :=
  res.transparency.getD offset false

/-- The alpha-snapping function described in `blockimages.h` (lines 59-61):
alphas below 10 are pushed to 0, alphas above 245 are pushed to 255, all
other alphas are left alone. -/
def snapAlpha (a : Nat) : Nat :=
  if a < 10 then 0 else if 245 < a then 255 else a

/-- Modelled from the spec: the body of `BlockImages::retouchAlphas` is not
in `src/` (the header only declares it).  Per the spec's Alpha Classifier
pass 1 and the header comment, every pixel inside the hexagon of every
sprite has its alpha snapped by `snapAlpha`; colour channels and pixels
outside the hexagon are untouched. -/
def retouchAlphas (B : Nat) (img : RGBAImage) : RGBAImage :=
  fun X Y =>
    let p := img X Y
    if inHex B (X % (4 * B)) (Y % (4 * B)) then ⟨p.r, p.g, p.b, snapAlpha p.a⟩ else p

/-- A catalog of table entries: each maps a `(blockID, blockData)` key to a
sprite offset. -/
abbrev Catalog : Type := List ((Nat × Nat) × Nat)

/-- A well-formed catalog: every key is an 8-bit id with a 4-bit data value,
and every offset lies in `[0, NUMBLOCKIMAGES)`. -/
def CatalogWF (catalog : Catalog) : Prop :=
  ∀ e ∈ catalog, e.1.1 < 256 ∧ e.1.2 < 16 ∧ e.2 < NUMBLOCKIMAGES

/-- Modelled from the spec: the body of `BlockImages::setOffsets` is not in
`src/` (the header only declares it).  Per the spec, the 4096-entry lookup
table starts with every entry pointing at the dummy image (offset 0) and is
then populated from the fixed static catalog mapping; unrecognized
`(blockID, blockData)` pairs therefore stay at offset 0. -/
def setOffsets (catalog : Catalog) : List Nat :=
  catalog.foldl (fun tbl e => tbl.set (blockOffsetsIndex e.1.1 e.1.2) e.2)
    (List.replicate blockOffsetsSize 0)

/-- The outcome of `BlockImages::create`. -/
inductive CreateResult
  | usedCache
  | rebuilt
  | failed
deriving DecidableEq

/-- The external inputs `create` depends on: the dimensions of a previously
persisted `blocks-B.png` when one is readable, and whether the stock
`terrain.png` asset can be read. -/
structure CreateEnv where
  persisted : Option (Nat × Nat)
  terrainReadable : Bool

/-- Modelled from the spec: the body of `BlockImages::create` is not in
`src/` (the header only declares it).  Per the spec's Atlas Builder
algorithm and error taxonomy: a readable persisted atlas with the correct
dimensions for `B` is used as-is; a persisted atlas with wrong dimensions is
a cache miss and falls through to a rebuild from the stock textures; the
rebuild, and hence the whole build, fails only when the stock asset cannot
be read. -/
def create (B : Nat) (env : CreateEnv) : CreateResult :=
  match env.persisted with
  | some (w, h) =>
      if w = atlasWidth B ∧ h = atlasHeight B then .usedCache
      else if env.terrainReadable then .rebuilt else .failed
  | none => if env.terrainReadable then .rebuilt else .failed

lemma mul_add_self_le_mul {a b s : Nat} (h : a < b) : a * s + s ≤ b * s := by
  have h1 : (a + 1) * s ≤ b * s := Nat.mul_le_mul_right s h
  calc a * s + s = (a + 1) * s := by ring
  _ ≤ b * s := h1

/-- C8: `getRect(offset)` is the row-major grid cell with 16 sprites per
row — `x = (offset % 16) * rectsize`, `y = (offset / 16) * rectsize`,
`w = h = rectsize` — and distinct offsets yield disjoint rectangles. -/
theorem getRect_row_major_disjoint (rectsize : Nat) (_hrs : 0 < rectsize) :
    (∀ offset : Nat, getRect rectsize offset =
      ImageRect.mk ((offset % 16) * rectsize) ((offset / 16) * rectsize) rectsize rectsize)
    ∧ ∀ o1 o2 : Nat, o1 ≠ o2 →
      ImageRect.disjoint (getRect rectsize o1) (getRect rectsize o2) := by
  refine ⟨fun _ => rfl, fun o1 o2 hne => ?_⟩
  have key : o1 % 16 ≠ o2 % 16 ∨ o1 / 16 ≠ o2 / 16 := by omega
  simp only [ImageRect.disjoint, getRect]
  rcases key with hk | hk
  · rcases Nat.lt_or_ge (o1 % 16) (o2 % 16) with hlt | hge
    · exact Or.inl (mul_add_self_le_mul hlt)
    · exact Or.inr (Or.inl (mul_add_self_le_mul (Nat.lt_of_le_of_ne hge (Ne.symm hk))))
  · rcases Nat.lt_or_ge (o1 / 16) (o2 / 16) with hlt | hge
    · exact Or.inr (Or.inr (Or.inl (mul_add_self_le_mul hlt)))
    · exact Or.inr (Or.inr (Or.inr (mul_add_self_le_mul
        (Nat.lt_of_le_of_ne hge (Ne.symm hk)))))

/-- Witness for C8 at `rectsize = 4` and offsets 1 and 17. -/
theorem getRect_row_major_disjoint_witness :
    0 < 4 ∧ (1 : Nat) ≠ 17 ∧
      ImageRect.disjoint (getRect 4 1) (getRect 4 17) := by
  refine ⟨by decide, by decide, ?_⟩
  exact (getRect_row_major_disjoint 4 (by decide)).2 1 17 (by decide)

/-- C10: with the table at its declared size `256 * 16`, `getOffset`
stays in bounds exactly on `blockData ≤ 15` — for every `blockID ≤ 255` and
`blockData ≤ 15` the flat index is below `4096` and the lookup succeeds,
while `blockID = 255, blockData = 255` indexes past the end of the array. -/
theorem getOffset_in_bounds_iff_data_nibble (tbl : List Nat)
    (hlen : tbl.length = blockOffsetsSize) :
    (∀ blockID blockData : Nat, blockID ≤ 255 → blockData ≤ 15 →
      blockOffsetsIndex blockID blockData < blockOffsetsSize ∧
      (getOffset tbl blockID blockData).isSome = true)
    ∧ ¬ blockOffsetsIndex 255 255 < blockOffsetsSize
    ∧ getOffset tbl 255 255 = none := by
  have hidx : ∀ blockID blockData : Nat, blockID ≤ 255 → blockData ≤ 15 →
      blockOffsetsIndex blockID blockData < blockOffsetsSize := by
    intro blockID blockData h1 h2
    simp only [blockOffsetsIndex, blockOffsetsSize]
    omega
  refine ⟨fun blockID blockData h1 h2 => ⟨hidx blockID blockData h1 h2, ?_⟩, ?_, ?_⟩
  · have hlt : blockOffsetsIndex blockID blockData < tbl.length := by
      rw [hlen]; exact hidx blockID blockData h1 h2
    simp [getOffset, List.getElem?_eq_getElem hlt]
  · simp only [blockOffsetsIndex, blockOffsetsSize]
    omega
  · apply List.getElem?_eq_none
    simp only [hlen, blockOffsetsIndex, blockOffsetsSize]
    omega

lemma foldl_set_length (catalog : Catalog) (init : List Nat) :
    (catalog.foldl (fun tbl e => tbl.set (blockOffsetsIndex e.1.1 e.1.2) e.2)
      init).length = init.length := by
  induction catalog generalizing init with
  | nil => rfl
  | cons e es ih => simp [List.foldl_cons, ih]

lemma setOffsets_length (catalog : Catalog) :
    (setOffsets catalog).length = blockOffsetsSize := by
  unfold setOffsets
  rw [foldl_set_length]
  simp

lemma setOffsets_mem_lt (catalog : Catalog)
    (hcat : ∀ e ∈ catalog, e.2 < NUMBLOCKIMAGES) :
    ∀ v ∈ setOffsets catalog, v < NUMBLOCKIMAGES := by
  unfold setOffsets
  have hinit : ∀ v ∈ List.replicate blockOffsetsSize (0 : Nat), v < NUMBLOCKIMAGES := by
    intro v hv
    rw [List.eq_of_mem_replicate hv]
    simp [NUMBLOCKIMAGES]
  generalize (List.replicate blockOffsetsSize (0 : Nat)) = init at hinit
  induction catalog generalizing init with
  | nil => exact hinit
  | cons e es ih =>
      intro v hv
      refine ih (fun f hf => hcat f (List.mem_cons_of_mem e hf)) _ ?_ v hv
      intro u hu
      rcases List.mem_or_eq_of_mem_set hu with hu' | hu'
      · exact hinit u hu'
      · rw [hu']; exact hcat e (List.mem_cons_self e es)

lemma setOffsets_get_of_untouched (catalog : Catalog) (idx : Nat)
    (hmiss : ∀ e ∈ catalog, blockOffsetsIndex e.1.1 e.1.2 ≠ idx) :
    (setOffsets catalog)[idx]? = (List.replicate blockOffsetsSize (0 : Nat))[idx]? := by
  unfold setOffsets
  generalize (List.replicate blockOffsetsSize (0 : Nat)) = init
  induction catalog generalizing init with
  | nil => rfl
  | cons e es ih =>
      rw [List.foldl_cons]
      rw [ih (fun f hf => hmiss f (List.mem_cons_of_mem e hf))]
      exact List.getElem?_set_ne (hmiss e (List.mem_cons_self e es))

lemma spriteOpaque_iff (B : Nat) (s : RGBAImage) :
    spriteOpaque B s = true ↔
      ∀ x y, x < 4 * B → y < 4 * B → inHex B x y = true → (s x y).a = 255 := by
  simp only [spriteOpaque, List.all_eq_true, List.mem_range]
  constructor
  · intro h x y hx hy hhex
    have := h y hy x hx
    rw [hhex] at this
    simpa using this
  · intro h y hy x hx
    cases hhex : inHex B x y with
    | false => simp
    | true => simp [h x y hx hy hhex]

lemma spriteTransparent_iff (B : Nat) (s : RGBAImage) :
    spriteTransparent B s = true ↔
      ∀ x y, x < 4 * B → y < 4 * B → inHex B x y = true → (s x y).a = 0 := by
  simp only [spriteTransparent, List.all_eq_true, List.mem_range]
  constructor
  · intro h x y hx hy hhex
    have := h y hy x hx
    rw [hhex] at this
    simpa using this
  · intro h y hy x hx
    cases hhex : inHex B x y with
    | false => simp
    | true => simp [h x y hx hy hhex]

lemma isOpaqueFlag_eq (B : Nat) (img : RGBAImage) (o : Nat) (ho : o < NUMBLOCKIMAGES) :
    isOpaqueFlag (checkOpacityAndTransparency B img) o =
      spriteOpaque B (spriteAt B img o) := by
  simp [isOpaqueFlag, checkOpacityAndTransparency, List.getD_eq_getElem?_getD,
    List.getElem?_range ho]

lemma isTransparentFlag_eq (B : Nat) (img : RGBAImage) (o : Nat)
    (ho : o < NUMBLOCKIMAGES) :
    isTransparentFlag (checkOpacityAndTransparency B img) o =
      spriteTransparent B (spriteAt B img o) := by
  simp [isTransparentFlag, checkOpacityAndTransparency, List.getD_eq_getElem?_getD,
    List.getElem?_range ho]

/-- C1: for every `blockType ≤ 255` and `variant ≤ 15`, the offset read from
a table populated from a well-formed catalog is below `NUMBLOCKIMAGES`, and
`getRect` of that offset lies fully inside the atlas bounds
(width `16 * 4B`, height `ceil(NUMBLOCKIMAGES / 16) * 4B`). -/
theorem getRect_getOffset_inside_atlas (B : Nat) (catalog : Catalog)
    (hwf : CatalogWF catalog) (blockID blockData : Nat)
    (hid : blockID ≤ 255) (hdata : blockData ≤ 15) :
    ∃ off, getOffset (setOffsets catalog) blockID blockData = some off ∧
      off < NUMBLOCKIMAGES ∧
      rectInside (getRect (4 * B) off) (atlasWidth B) (atlasHeight B) := by
  have hidx : blockOffsetsIndex blockID blockData < (setOffsets catalog).length := by
    rw [setOffsets_length]
    simp only [blockOffsetsIndex, blockOffsetsSize]
    omega
  obtain ⟨off, hoff⟩ : ∃ off,
      (setOffsets catalog)[blockOffsetsIndex blockID blockData]? = some off := by
    simp [List.getElem?_eq_getElem hidx]
  have hlt : off < NUMBLOCKIMAGES :=
    setOffsets_mem_lt catalog (fun e he => (hwf e he).2.2) off (List.getElem?_mem hoff)
  refine ⟨off, hoff, hlt, ?_, ?_⟩
  · exact mul_add_self_le_mul (Nat.mod_lt _ (by omega))
  · have hdiv : off / 16 < 45 := by
      simp only [NUMBLOCKIMAGES] at hlt
      omega
    have h45 : atlasHeight B = 45 * (4 * B) := by
      norm_num [atlasHeight, NUMBLOCKIMAGES]
    rw [h45]
    exact mul_add_self_le_mul hdiv

/-- Witness for C1: the one-entry catalog mapping `(1, 0)` to offset 1,
with `B = 1`, `blockID = 1`, `blockData = 0`. -/
theorem getRect_getOffset_inside_atlas_witness :
    CatalogWF [((1, 0), 1)] ∧ (1 : Nat) ≤ 255 ∧ (0 : Nat) ≤ 15 ∧
      ∃ off, getOffset (setOffsets [((1, 0), 1)]) 1 0 = some off ∧
        off < NUMBLOCKIMAGES ∧
        rectInside (getRect (4 * 1) off) (atlasWidth 1) (atlasHeight 1) := by
  refine ⟨?_, by decide, by decide,
    getRect_getOffset_inside_atlas 1 [((1, 0), 1)] ?_ 1 0 (by decide) (by decide)⟩
  · intro e he
    simp only [List.mem_singleton] at he
    subst he
    refine ⟨by decide, by decide, by decide⟩
  · intro e he
    simp only [List.mem_singleton] at he
    subst he
    refine ⟨by decide, by decide, by decide⟩

/-- A fully transparent image, used as a concrete witness input. -/
def transparentImg : RGBAImage := fun _ _ => ⟨0, 0, 0, 0⟩

/-- C2: a `(blockID, blockData)` pair that appears in no catalog entry reads
offset 0 from the populated table, and the sprite at offset 0 of a dummy
(fully transparent) first cell is flagged fully transparent by the
classifier. -/
theorem unrecognized_pairs_map_to_dummy (catalog : Catalog) (hwf : CatalogWF catalog)
    (blockID blockData : Nat) (hid : blockID < 256) (hdata : blockData < 16)
    (hnot : ∀ e ∈ catalog, e.1 ≠ (blockID, blockData))
    (B : Nat) (img : RGBAImage)
    (hdummy : ∀ x y, x < 4 * B → y < 4 * B → (img x y).a = 0) :
    getOffset (setOffsets catalog) blockID blockData = some 0 ∧
      isTransparentFlag (checkOpacityAndTransparency B img) 0 = true := by
  have hmiss : ∀ e ∈ catalog,
      blockOffsetsIndex e.1.1 e.1.2 ≠ blockOffsetsIndex blockID blockData := by
    rintro ⟨⟨a, b⟩, off⟩ he hEq
    have hb16 : b < 16 := (hwf _ he).2.1
    simp only [blockOffsetsIndex] at hEq
    have ha : a = blockID := by omega
    have hb : b = blockData := by omega
    exact hnot _ he (by simp [ha, hb])
  constructor
  · show (setOffsets catalog)[blockOffsetsIndex blockID blockData]? = some 0
    rw [setOffsets_get_of_untouched catalog _ hmiss, List.getElem?_replicate]
    rw [if_pos (by simp only [blockOffsetsIndex, blockOffsetsSize]; omega)]
  · rw [isTransparentFlag_eq B img 0 (by simp [NUMBLOCKIMAGES]), spriteTransparent_iff]
    intro x y hx hy _
    simp only [spriteAt, Nat.zero_mod, Nat.zero_mul, Nat.zero_add, Nat.zero_div]
    exact hdummy x y hx hy

/-- Witness for C2: the catalog `[((1,0), 1)]` does not contain `(0, 0)`, so
air reads offset 0, and on the fully transparent atlas with `B = 1` the
dummy sprite is flagged transparent. -/
theorem unrecognized_pairs_map_to_dummy_witness :
    CatalogWF [((1, 0), 1)] ∧ (0 : Nat) < 256 ∧ (0 : Nat) < 16 ∧
      (∀ e ∈ ([((1, 0), 1)] : Catalog), e.1 ≠ (0, 0)) ∧
      (getOffset (setOffsets [((1, 0), 1)]) 0 0 = some 0 ∧
        isTransparentFlag (checkOpacityAndTransparency 1 transparentImg) 0 = true) := by
  have hwf : CatalogWF [((1, 0), 1)] := by
    intro e he
    simp only [List.mem_singleton] at he
    subst he
    refine ⟨by decide, by decide, by decide⟩
  have hnot : ∀ e ∈ ([((1, 0), 1)] : Catalog), e.1 ≠ (0, 0) := by
    intro e he
    simp only [List.mem_singleton] at he
    subst he
    decide
  exact ⟨hwf, by decide, by decide, hnot,
    unrecognized_pairs_map_to_dummy [((1, 0), 1)] hwf 0 0 (by decide) (by decide) hnot
      1 transparentImg (fun x y _ _ => rfl)⟩

/-- C3: after the classifier runs, the opacity flag of an offset is true iff
every hexagon pixel of that sprite has alpha 255, and the transparency flag
is true iff every hexagon pixel has alpha 0. -/
theorem classifier_flags_iff (B : Nat) (img : RGBAImage) (o : Nat)
    (ho : o < NUMBLOCKIMAGES) :
    (isOpaqueFlag (checkOpacityAndTransparency B img) o = true ↔
      ∀ x y, x < 4 * B → y < 4 * B → inHex B x y = true →
        (spriteAt B img o x y).a = 255)
    ∧ (isTransparentFlag (checkOpacityAndTransparency B img) o = true ↔
      ∀ x y, x < 4 * B → y < 4 * B → inHex B x y = true →
        (spriteAt B img o x y).a = 0) := by
  rw [isOpaqueFlag_eq B img o ho, isTransparentFlag_eq B img o ho]
  exact ⟨spriteOpaque_iff B _, spriteTransparent_iff B _⟩

/-- Witness for C3 at `B = 1`, the fully transparent atlas, offset 3. -/
theorem classifier_flags_iff_witness :
    (3 : Nat) < NUMBLOCKIMAGES ∧
      ((isOpaqueFlag (checkOpacityAndTransparency 1 transparentImg) 3 = true ↔
        ∀ x y, x < 4 * 1 → y < 4 * 1 → inHex 1 x y = true →
          (spriteAt 1 transparentImg 3 x y).a = 255)
      ∧ (isTransparentFlag (checkOpacityAndTransparency 1 transparentImg) 3 = true ↔
        ∀ x y, x < 4 * 1 → y < 4 * 1 → inHex 1 x y = true →
          (spriteAt 1 transparentImg 3 x y).a = 0)) :=
  ⟨by decide, classifier_flags_iff 1 transparentImg 3 (by decide)⟩

/-- C4: on every pixel inside the hexagon of every sprite cell, the snap
pass sends alpha strictly below 10 to 0 and alpha strictly above 245 to
255, leaves every other alpha unchanged, and never touches the colour
channels. -/
theorem retouchAlphas_snaps_hexagon (B : Nat) (img : RGBAImage) (X Y : Nat)
    (hhex : inHex B (X % (4 * B)) (Y % (4 * B)) = true) :
    ((img X Y).a < 10 → (retouchAlphas B img X Y).a = 0)
    ∧ (245 < (img X Y).a → (retouchAlphas B img X Y).a = 255)
    ∧ (10 ≤ (img X Y).a → (img X Y).a ≤ 245 →
        (retouchAlphas B img X Y).a = (img X Y).a)
    ∧ (retouchAlphas B img X Y).r = (img X Y).r
    ∧ (retouchAlphas B img X Y).g = (img X Y).g
    ∧ (retouchAlphas B img X Y).b = (img X Y).b := by
  have hr : retouchAlphas B img X Y =
      ⟨(img X Y).r, (img X Y).g, (img X Y).b, snapAlpha (img X Y).a⟩ := by
    simp [retouchAlphas, hhex]
  rw [hr]
  refine ⟨?_, ?_, ?_, rfl, rfl, rfl⟩
  · intro h
    simp [snapAlpha, h]
  · intro h
    simp only [snapAlpha]
    rw [if_neg (by omega), if_pos h]
  · intro h1 h2
    simp only [snapAlpha]
    rw [if_neg (by omega), if_neg (by omega)]

/-- The image that is 5 everywhere on all channels, a concrete witness
input with a snappable low alpha. -/
def faintImg : RGBAImage := fun _ _ => ⟨5, 5, 5, 5⟩

/-- Witness for C4 at `B = 1`, pixel `(1, 1)` (inside the hexagon), on an
image whose alpha 5 is below the low threshold. -/
theorem retouchAlphas_snaps_hexagon_witness :
    inHex 1 (1 % (4 * 1)) (1 % (4 * 1)) = true ∧
      (((faintImg 1 1).a < 10 → (retouchAlphas 1 faintImg 1 1).a = 0)
      ∧ (245 < (faintImg 1 1).a → (retouchAlphas 1 faintImg 1 1).a = 255)
      ∧ (10 ≤ (faintImg 1 1).a → (faintImg 1 1).a ≤ 245 →
          (retouchAlphas 1 faintImg 1 1).a = (faintImg 1 1).a)
      ∧ (retouchAlphas 1 faintImg 1 1).r = (faintImg 1 1).r
      ∧ (retouchAlphas 1 faintImg 1 1).g = (faintImg 1 1).g
      ∧ (retouchAlphas 1 faintImg 1 1).b = (faintImg 1 1).b) :=
  ⟨by decide, retouchAlphas_snaps_hexagon 1 faintImg 1 1 (by decide)⟩

lemma snapAlpha_idem (a : Nat) : snapAlpha (snapAlpha a) = snapAlpha a := by
  rcases Nat.lt_or_ge a 10 with h1 | h1
  · simp [snapAlpha, h1]
  · rcases Nat.lt_or_ge 245 a with h2 | h2
    · have hn1 : ¬ a < 10 := by omega
      simp [snapAlpha, hn1, h2]
    · have hn1 : ¬ a < 10 := by omega
      have hn2 : ¬ 245 < a := by omega
      simp [snapAlpha, hn1, hn2]

/-- C7: the snap pass is idempotent — running `retouchAlphas` on an
already-snapped image changes no pixel. -/
theorem retouchAlphas_idempotent (B : Nat) (img : RGBAImage) (X Y : Nat) :
    retouchAlphas B (retouchAlphas B img) X Y = retouchAlphas B img X Y := by
  simp only [retouchAlphas]
  cases hhex : inHex B (X % (4 * B)) (Y % (4 * B)) with
  | false => simp
  | true => simp [snapAlpha_idem]

/-- C5: in the classifier's output atlas, every pixel outside the hexagon of
any valid offset's `4B × 4B` cell has alpha 0, whatever the source pixels
were (in particular for atlases loaded from a persisted image). -/
theorem classifier_forces_outside_transparent (B : Nat) (img : RGBAImage)
    (o : Nat) (_ho : o < NUMBLOCKIMAGES) (x y : Nat)
    (hx : x < 4 * B) (hy : y < 4 * B) (hout : inHex B x y = false) :
    ((checkOpacityAndTransparency B img).atlas
      ((o % 16) * (4 * B) + x) ((o / 16) * (4 * B) + y)).a = 0 := by
  have hx' : ((o % 16) * (4 * B) + x) % (4 * B) = x := by
    rw [Nat.add_comm, Nat.add_mul_mod_self_right]
    exact Nat.mod_eq_of_lt hx
  have hy' : ((o / 16) * (4 * B) + y) % (4 * B) = y := by
    rw [Nat.add_comm, Nat.add_mul_mod_self_right]
    exact Nat.mod_eq_of_lt hy
  simp only [checkOpacityAndTransparency, hx', hy', hout]
  simp

/-- The image that is 255 everywhere on all channels, including outside the
hexagons, a concrete malformed witness input. -/
def solidImg : RGBAImage := fun _ _ => ⟨255, 255, 255, 255⟩

/-- Witness for C5 at `B = 1`, offset 2, corner pixel `(0, 0)` of the cell
(outside the hexagon), on a malformed all-opaque source image. -/
theorem classifier_forces_outside_transparent_witness :
    (2 : Nat) < NUMBLOCKIMAGES ∧ (0 : Nat) < 4 * 1 ∧ inHex 1 0 0 = false ∧
      ((checkOpacityAndTransparency 1 solidImg).atlas
        ((2 % 16) * (4 * 1) + 0) ((2 / 16) * (4 * 1) + 0)).a = 0 :=
  ⟨by decide, by decide, by decide,
    classifier_forces_outside_transparent 1 solidImg 2 (by decide) 0 0
      (by decide) (by decide) (by decide)⟩

lemma inHex_top (B : Nat) (hB : 1 ≤ B) : inHex B (2 * B - 1) 0 = true := by
  simp only [inHex, Bool.and_eq_true, Bool.or_eq_true, decide_eq_true_eq]
  omega

/-- C6: no offset is flagged both opaque and transparent, and on an atlas
whose first cell is the dummy (fully transparent) sprite, offset 0 is
flagged transparent and not opaque. -/
theorem flags_never_both (B : Nat) (img : RGBAImage) (hB : 1 ≤ B)
    (hdummy : ∀ x y, x < 4 * B → y < 4 * B → (img x y).a = 0) :
    (∀ o, o < NUMBLOCKIMAGES →
      ¬(isOpaqueFlag (checkOpacityAndTransparency B img) o = true ∧
        isTransparentFlag (checkOpacityAndTransparency B img) o = true))
    ∧ isTransparentFlag (checkOpacityAndTransparency B img) 0 = true
    ∧ isOpaqueFlag (checkOpacityAndTransparency B img) 0 = false := by
  have h0 : (0 : Nat) < NUMBLOCKIMAGES := by simp [NUMBLOCKIMAGES]
  have hxlt : 2 * B - 1 < 4 * B := by omega
  have hylt : (0 : Nat) < 4 * B := by omega
  have hdummy0 : ∀ x y, x < 4 * B → y < 4 * B → (spriteAt B img 0 x y).a = 0 := by
    intro x y hx hy
    simp only [spriteAt, Nat.zero_mod, Nat.zero_mul, Nat.zero_add, Nat.zero_div]
    exact hdummy x y hx hy
  refine ⟨?_, ?_, ?_⟩
  · rintro o ho ⟨hop, htr⟩
    have hiff := classifier_flags_iff B img o ho
    have h255 := hiff.1.mp hop (2 * B - 1) 0 hxlt hylt (inHex_top B hB)
    have hz := hiff.2.mp htr (2 * B - 1) 0 hxlt hylt (inHex_top B hB)
    omega
  · exact (classifier_flags_iff B img 0 h0).2.mpr
      (fun x y hx hy _ => hdummy0 x y hx hy)
  · rw [Bool.eq_false_iff]
    intro hop
    have h255 := (classifier_flags_iff B img 0 h0).1.mp hop (2 * B - 1) 0 hxlt hylt
      (inHex_top B hB)
    have hz := hdummy0 (2 * B - 1) 0 hxlt hylt
    omega

/-- Witness for C6 at `B = 1` on the fully transparent atlas. -/
theorem flags_never_both_witness :
    (1 : Nat) ≤ 1 ∧
      ((∀ o, o < NUMBLOCKIMAGES →
        ¬(isOpaqueFlag (checkOpacityAndTransparency 1 transparentImg) o = true ∧
          isTransparentFlag (checkOpacityAndTransparency 1 transparentImg) o = true))
      ∧ isTransparentFlag (checkOpacityAndTransparency 1 transparentImg) 0 = true
      ∧ isOpaqueFlag (checkOpacityAndTransparency 1 transparentImg) 0 = false) :=
  ⟨by decide, flags_never_both 1 transparentImg (by decide) (fun x y _ _ => rfl)⟩

/-- C9: `create` fails iff the persisted atlas is missing or has the wrong
dimensions for `B` and the stock terrain asset is unreadable; in particular
a wrong-dimensioned persisted atlas with a readable terrain asset triggers a
rebuild, not a failure. -/
theorem create_fails_only_without_terrain (B : Nat) (env : CreateEnv) :
    (create B env = .failed ↔
      env.terrainReadable = false ∧
        ∀ w h, env.persisted = some (w, h) →
          ¬(w = atlasWidth B ∧ h = atlasHeight B))
    ∧ (∀ w h, env.persisted = some (w, h) →
        ¬(w = atlasWidth B ∧ h = atlasHeight B) →
        env.terrainReadable = true → create B env = .rebuilt) := by
  obtain ⟨p, t⟩ := env
  rcases p with - | ⟨w, h⟩
  · cases t <;> simp [create]
  · by_cases hdims : w = atlasWidth B ∧ h = atlasHeight B
    · cases t <;> simp [create, hdims]
    · cases t
      · simp [create, hdims]
        tauto
      · simp [create, hdims]

/-- Witness for C9: a persisted atlas of the wrong dimensions plus a
readable terrain asset, at `B = 1`. -/
theorem create_fails_only_without_terrain_witness :
    (CreateEnv.mk (some (7, 7)) true).persisted = some (7, 7) ∧
      ¬((7 : Nat) = atlasWidth 1 ∧ (7 : Nat) = atlasHeight 1) ∧
      (CreateEnv.mk (some (7, 7)) true).terrainReadable = true ∧
      create 1 (CreateEnv.mk (some (7, 7)) true) = .rebuilt :=
  ⟨rfl, by decide, rfl,
    (create_fails_only_without_terrain 1 (CreateEnv.mk (some (7, 7)) true)).2 7 7 rfl
      (by decide) rfl⟩

/-- Witness for C10 on the all-zero table of length `256 * 16`, at
`blockID = 3`, `blockData = 7`. -/
theorem getOffset_in_bounds_iff_data_nibble_witness :
    (List.replicate blockOffsetsSize 0).length = blockOffsetsSize ∧
      (3 : Nat) ≤ 255 ∧ (7 : Nat) ≤ 15 ∧
      (blockOffsetsIndex 3 7 < blockOffsetsSize ∧
        (getOffset (List.replicate blockOffsetsSize 0) 3 7).isSome = true) ∧
      getOffset (List.replicate blockOffsetsSize 0) 255 255 = none := by
  have h := getOffset_in_bounds_iff_data_nibble (List.replicate blockOffsetsSize 0)
    (List.length_replicate _ _)
  exact ⟨List.length_replicate _ _, by decide, by decide,
    h.1 3 7 (by decide) (by decide), h.2.2⟩

end Pigmap
